import Mathlib

/-!
Shallow embedding of the native time bridge in
src/main/cpp/win/jsr-310.cpp (ThreeTen/threetenbp, ref-UTC branch).

The file exports three JNI entry points:
  JNI_OnLoad
  Java_javax_time_impl_WindowsSystemTime_get
  Java_javax_time_impl_WindowsSystemTime_getAdjustment

Modelling conventions
  - A jlong return value is represented by its 64-bit two's-complement
    bit pattern, a natural number below 2 ^ 64; the C literal -1 is the
    all-ones pattern 2 ^ 64 - 1.
  - A DWORD out-parameter is a natural number; the `% 2 ^ 32` in the
    definitions records its 32-bit width (any value the OS stores in a
    DWORD is already reduced modulo 2 ^ 32).
  - The OS calls are mocked by passing their outcome (the BOOL result
    and the values left in the out-parameters) as an explicit argument.
-/

/-- Mocked outcome of the Windows call GetSystemTimeAdjustment: the BOOL
return value and the three values left in the out-parameters
timeAdjustment (DWORD), timeIncrement (DWORD) and disabled (BOOL). -/
structure GetSystemTimeAdjustmentOutcome where
  result : Bool
  timeAdjustment : Nat
  timeIncrement : Nat
  disabled : Bool
  deriving DecidableEq

/-- Bit pattern of the jlong literal -1: all 64 bits set. -/
def jlongMinusOne : Nat := 2 ^ 64 - 1

/-- The success-path packing of lines 35-38 of jsr-310.cpp:
t = (((jlong)timeAdjustment) << 32) | ((jlong)timeIncrement);
if (disabled) t |= (((jlong)1) << 63).
Both DWORD casts to jlong zero-extend. -/
def packedEncoding (os : GetSystemTimeAdjustmentOutcome) : Nat :=
  let t := ((os.timeAdjustment % 2 ^ 32) <<< 32) ||| (os.timeIncrement % 2 ^ 32)
  if os.disabled then t ||| (1 <<< 63) else t

/-- Embedding of Java_javax_time_impl_WindowsSystemTime_getAdjustment
(lines 28-39 of jsr-310.cpp): call GetSystemTimeAdjustment; if its BOOL
result is false return -1, otherwise return the packed encoding. -/
def Java_javax_time_impl_WindowsSystemTime_getAdjustment
    (os : GetSystemTimeAdjustmentOutcome) : Nat :=
  if os.result = false then jlongMinusOne
  else packedEncoding os

/-- The Windows FILETIME structure: two DWORD members, dwLowDateTime and
dwHighDateTime, holding the low and high 32 bits of a 100-nanosecond
tick count since 1601-01-01. -/
structure FILETIME where
  dwLowDateTime : Nat
  dwHighDateTime : Nat
  deriving DecidableEq

/-- Reading the union { FILETIME fileTime; LARGE_INTEGER time; jlong time64; }
through its time64 member after the OS wrote the fileTime member.  On the
little-endian Windows ABI targeted by the DLL, LARGE_INTEGER and FILETIME
overlay so that dwLowDateTime occupies bits 0-31 and dwHighDateTime bits
32-63 of the 64-bit integer. -/
def fileTimeAsTime64 (t : FILETIME) : Nat :=
  ((t.dwHighDateTime % 2 ^ 32) <<< 32) ||| (t.dwLowDateTime % 2 ^ 32)

/-- Embedding of Java_javax_time_impl_WindowsSystemTime_get (lines 17-26
of jsr-310.cpp): GetSystemTimeAsFileTime writes the FILETIME member of
the union and the function returns the time64 member, with no failure
branch and no transformation. The mocked OS outcome is the FILETIME
written. -/
def Java_javax_time_impl_WindowsSystemTime_get (osTime : FILETIME) : Nat :=
  fileTimeAsTime64 osTime

/-- The JNI version constant 0x00010002 from jni.h. -/
def JNI_VERSION_1_2 : Nat := 0x00010002

/-- Embedding of JNI_OnLoad (lines 11-15 of jsr-310.cpp): the body is a
single return of JNI_VERSION_1_2; the dynamic-symbol-resolution lines are
commented out in the source, so the function is pure and argument
independent. The vm and reserved pointer arguments are modelled as
natural numbers. -/
def JNI_OnLoad (vm : Nat) (reserved : Nat) : Nat := JNI_VERSION_1_2

/-! Arithmetic bridge lemmas. -/

/-- Merging a value shifted 32 bits left with a low word below 2 ^ 32 is
plain addition. -/
lemma shiftLeft32_or_eq (a b : Nat) (hb : b < 2 ^ 32) :
    (a <<< 32) ||| b = 2 ^ 32 * a + b := by
  rw [Nat.shiftLeft_eq, Nat.mul_comm, ← Nat.mul_add_lt_is_or hb]

/-- Setting bit 63 of a 64-bit value forces that bit and keeps bits 0-62. -/
lemma or_top_bit (t : Nat) (h : t < 2 ^ 64) :
    t ||| (1 <<< 63) = 2 ^ 63 + t % 2 ^ 63 := by
  have h163 : (1 : Nat) <<< 63 = 2 ^ 63 := by decide
  rw [h163]
  apply Nat.eq_of_testBit_eq
  intro j
  have hr : t % 2 ^ 63 < 2 ^ 63 := Nat.mod_lt _ (by norm_num)
  have h2 := Nat.testBit_mul_pow_two_add 1 hr j
  rw [Nat.mul_one] at h2
  rw [Nat.testBit_lor, Nat.testBit_two_pow, h2]
  rcases Nat.lt_trichotomy j 63 with hj | hj | hj
  · rw [if_pos hj, Nat.testBit_mod_two_pow, decide_eq_true hj, Bool.true_and,
      decide_eq_false (by omega : ¬ (63 = j)), Bool.or_false]
  · subst hj
    rw [if_neg (by omega), Nat.sub_self, decide_eq_true rfl, Bool.or_true]
    rfl
  · have hjf : Nat.testBit t j = false :=
      Nat.testBit_lt_two_pow (lt_of_lt_of_le h (Nat.pow_le_pow_right (by norm_num) hj))
    have h1f : Nat.testBit 1 (j - 63) = false :=
      Nat.testBit_lt_two_pow (lt_of_lt_of_le (by norm_num : (1 : Nat) < 2 ^ 1)
        (Nat.pow_le_pow_right (by norm_num) (by omega)))
    rw [if_neg (by omega), hjf, h1f, decide_eq_false (by omega : ¬ (63 = j)), Bool.or_false]

/-- Closed arithmetic form of the success-path packing. -/
lemma packedEncoding_eq (r : Bool) (A I : Nat) (d : Bool) :
    packedEncoding ⟨r, A, I, d⟩ =
      if d then 2 ^ 63 + 2 ^ 32 * (A % 2 ^ 31) + I % 2 ^ 32
      else 2 ^ 32 * (A % 2 ^ 32) + I % 2 ^ 32 := by
  have hI : I % 2 ^ 32 < 2 ^ 32 := Nat.mod_lt _ (by norm_num)
  have hA : A % 2 ^ 32 < 2 ^ 32 := Nat.mod_lt _ (by norm_num)
  show (let t := ((A % 2 ^ 32) <<< 32) ||| (I % 2 ^ 32);
        if d then t ||| (1 <<< 63) else t) = _
  rw [shiftLeft32_or_eq _ _ hI]
  cases d with
  | false => simp
  | true =>
    have hlt : 2 ^ 32 * (A % 2 ^ 32) + I % 2 ^ 32 < 2 ^ 64 := by omega
    simp only [if_true]
    rw [or_top_bit _ hlt]
    omega

/-- Closed arithmetic form of getAdjustment on an arbitrary mocked outcome. -/
lemma getAdjustment_eq (r : Bool) (A I : Nat) (d : Bool) :
    Java_javax_time_impl_WindowsSystemTime_getAdjustment ⟨r, A, I, d⟩ =
      if r = false then 2 ^ 64 - 1
      else if d then 2 ^ 63 + 2 ^ 32 * (A % 2 ^ 31) + I % 2 ^ 32
      else 2 ^ 32 * (A % 2 ^ 32) + I % 2 ^ 32 := by
  cases r with
  | false => rfl
  | true =>
    show packedEncoding ⟨true, A, I, d⟩ = _
    rw [packedEncoding_eq]
    simp

/-! Claim theorems. -/

/-- Claim C1, counterexample: the claim says that for every successful
outcome with disabled=false the result equals (A<<32)|I with bit 63
clear; at A = 2 ^ 31 (a legal DWORD whose top bit is set), I = 0, the
result has bit 63 set, so the claim as stated is false. -/
theorem getAdjustment_bit63_clear_cex :
    ¬ (Java_javax_time_impl_WindowsSystemTime_getAdjustment ⟨true, 2 ^ 31, 0, false⟩ =
         ((2 ^ 31) <<< 32) ||| 0 ∧
       Nat.testBit
         (Java_javax_time_impl_WindowsSystemTime_getAdjustment ⟨true, 2 ^ 31, 0, false⟩) 63 =
         false) := by
  decide

/-- Claim C1, amended: for every successful outcome with disabled=false,
adjustment A < 2 ^ 32 and increment I < 2 ^ 32, the result equals
(A<<32)|I, and bit 63 of the result equals bit 31 of A (hence it is
clear exactly when A < 2 ^ 31). -/
theorem getAdjustment_enabled_layout (A I : Nat) (hA : A < 2 ^ 32) (hI : I < 2 ^ 32) :
    Java_javax_time_impl_WindowsSystemTime_getAdjustment ⟨true, A, I, false⟩ =
      (A <<< 32) ||| I ∧
    Nat.testBit (Java_javax_time_impl_WindowsSystemTime_getAdjustment ⟨true, A, I, false⟩) 63 =
      Nat.testBit A 31 := by
  have h := getAdjustment_eq true A I false
  simp at h
  constructor
  · rw [h, shiftLeft32_or_eq _ _ hI]
    omega
  · rw [h, Nat.testBit_to_div_mod, Nat.testBit_to_div_mod, decide_eq_decide]
    omega

/-- Witness for the amended C1 theorem at A = 3, I = 5. -/
theorem getAdjustment_enabled_layout_witness :
    (3 : Nat) < 2 ^ 32 ∧ (5 : Nat) < 2 ^ 32 ∧
    (Java_javax_time_impl_WindowsSystemTime_getAdjustment ⟨true, 3, 5, false⟩ =
       ((3 : Nat) <<< 32) ||| 5 ∧
     Nat.testBit (Java_javax_time_impl_WindowsSystemTime_getAdjustment ⟨true, 3, 5, false⟩) 63 =
       Nat.testBit 3 31) :=
  ⟨by norm_num, by norm_num, getAdjustment_enabled_layout 3 5 (by norm_num) (by norm_num)⟩

/-- Claim C2: when the OS call succeeds with disabled=true, bit 63 of the
result is set for every adjustment A and increment I, including when A's
top bit is clear. -/
theorem getAdjustment_disabled_sets_bit63 (A I : Nat) :
    Nat.testBit (Java_javax_time_impl_WindowsSystemTime_getAdjustment ⟨true, A, I, true⟩) 63 =
      true := by
  have h := getAdjustment_eq true A I true
  simp at h
  rw [h, Nat.testBit_to_div_mod, decide_eq_true_eq]
  omega

/-- Claim C3: the result is the all-ones pattern (jlong -1) exactly when
the OS call fails or it succeeds with outputs whose packed encoding is
itself all-ones; in particular every failing outcome returns -1,
whatever values are left in the three out-parameters. -/
theorem getAdjustment_minus_one_iff :
    (∀ os : GetSystemTimeAdjustmentOutcome,
        Java_javax_time_impl_WindowsSystemTime_getAdjustment os = 2 ^ 64 - 1 ↔
          os.result = false ∨ (os.result = true ∧ packedEncoding os = 2 ^ 64 - 1)) ∧
    (∀ (A I : Nat) (d : Bool),
        Java_javax_time_impl_WindowsSystemTime_getAdjustment ⟨false, A, I, d⟩ = 2 ^ 64 - 1) := by
  constructor
  · intro os
    rcases os with ⟨r, A, I, d⟩
    cases r
    · simp [Java_javax_time_impl_WindowsSystemTime_getAdjustment, jlongMinusOne]
    · simp [Java_javax_time_impl_WindowsSystemTime_getAdjustment]
  · intro A I d
    rfl

/-- Claim C4: the failure sentinel is ambiguous: a successful outcome
(A = 2 ^ 32 - 1, I = 2 ^ 32 - 1, disabled=false) produces exactly the
same value -1 as a failing OS call. -/
theorem getAdjustment_sentinel_ambiguous :
    ∃ os : GetSystemTimeAdjustmentOutcome, os.result = true ∧
      Java_javax_time_impl_WindowsSystemTime_getAdjustment os = 2 ^ 64 - 1 ∧
      Java_javax_time_impl_WindowsSystemTime_getAdjustment os =
        Java_javax_time_impl_WindowsSystemTime_getAdjustment ⟨false, 0, 0, false⟩ := by
  refine ⟨⟨true, 2 ^ 32 - 1, 2 ^ 32 - 1, false⟩, rfl, ?_, ?_⟩ <;> decide

/-- Claim C5: the encoding is not injective: the outcome with adjustment
2 ^ 31 + 5 (top bit set) and disabled=false and the outcome with
adjustment 5 (same value with the top bit cleared) and disabled=true are
distinct yet produce the same 64-bit result. -/
theorem getAdjustment_encoding_not_injective :
    (⟨true, 2 ^ 31 + 5, 7, false⟩ : GetSystemTimeAdjustmentOutcome) ≠
      (⟨true, 5, 7, true⟩ : GetSystemTimeAdjustmentOutcome) ∧
    Java_javax_time_impl_WindowsSystemTime_getAdjustment ⟨true, 2 ^ 31 + 5, 7, false⟩ =
      Java_javax_time_impl_WindowsSystemTime_getAdjustment ⟨true, 5, 7, true⟩ := by
  constructor
  · decide
  · decide

/-- Claim C6: JNI_OnLoad returns the fixed token JNI_VERSION_1_2 for
every pair of arguments; the embedding is a pure constant function, the
dynamic-symbol-resolution path being commented out in the source. -/
theorem JNI_OnLoad_returns_fixed_version (vm reserved : Nat) :
    JNI_OnLoad vm reserved = JNI_VERSION_1_2 := rfl

/-- Claim C7: get returns the raw 64-bit value the OS wrote into the
FILETIME, unconditionally and with no transformation: the low DWORD
occupies bits 0-31 and the high DWORD bits 32-63 of the result. -/
theorem get_returns_raw_filetime (t : FILETIME)
    (hl : t.dwLowDateTime < 2 ^ 32) (hh : t.dwHighDateTime < 2 ^ 32) :
    Java_javax_time_impl_WindowsSystemTime_get t = fileTimeAsTime64 t ∧
    Java_javax_time_impl_WindowsSystemTime_get t % 2 ^ 32 = t.dwLowDateTime ∧
    Java_javax_time_impl_WindowsSystemTime_get t / 2 ^ 32 = t.dwHighDateTime := by
  have h : Java_javax_time_impl_WindowsSystemTime_get t =
      2 ^ 32 * t.dwHighDateTime + t.dwLowDateTime := by
    show fileTimeAsTime64 t = _
    unfold fileTimeAsTime64
    rw [shiftLeft32_or_eq _ _ (Nat.mod_lt _ (by norm_num))]
    omega
  refine ⟨rfl, ?_, ?_⟩ <;> rw [h] <;> omega

/-- Witness for the C7 theorem on the FILETIME with low word 123 and
high word 456. -/
theorem get_returns_raw_filetime_witness :
    (123 : Nat) < 2 ^ 32 ∧ (456 : Nat) < 2 ^ 32 ∧
    (Java_javax_time_impl_WindowsSystemTime_get ⟨123, 456⟩ = fileTimeAsTime64 ⟨123, 456⟩ ∧
     Java_javax_time_impl_WindowsSystemTime_get ⟨123, 456⟩ % 2 ^ 32 = 123 ∧
     Java_javax_time_impl_WindowsSystemTime_get ⟨123, 456⟩ / 2 ^ 32 = 456) :=
  ⟨by norm_num, by norm_num, get_returns_raw_filetime ⟨123, 456⟩ (by norm_num) (by norm_num)⟩

/-- Claim C8: under a stable clock, i.e. when the sequence of 64-bit
tick values the OS writes is non-decreasing from each call to the next,
the values returned by consecutive calls to get are monotonically
non-decreasing. -/
theorem get_monotone_under_stable_clock (osTimes : Nat → FILETIME)
    (h : ∀ i, fileTimeAsTime64 (osTimes i) ≤ fileTimeAsTime64 (osTimes (i + 1)))
    (i j : Nat) (hij : i ≤ j) :
    Java_javax_time_impl_WindowsSystemTime_get (osTimes i) ≤
      Java_javax_time_impl_WindowsSystemTime_get (osTimes j) := by
  induction j with
  | zero =>
    have hi : i = 0 := Nat.le_zero.mp hij
    subst hi
    exact le_refl _
  | succ n ih =>
    rcases Nat.lt_or_ge i (n + 1) with hlt | hge
    · exact le_trans (ih (Nat.lt_succ_iff.mp hlt)) (h n)
    · have hi : i = n + 1 := Nat.le_antisymm hij hge
      subst hi
      exact le_refl _

/-- Witness for the C8 theorem on the constant OS time sequence. -/
theorem get_monotone_under_stable_clock_witness :
    (∀ i : Nat, fileTimeAsTime64 ((fun _ => (⟨5, 9⟩ : FILETIME)) i) ≤
        fileTimeAsTime64 ((fun _ => (⟨5, 9⟩ : FILETIME)) (i + 1))) ∧
    (0 : Nat) ≤ 3 ∧
    Java_javax_time_impl_WindowsSystemTime_get ((fun _ => (⟨5, 9⟩ : FILETIME)) 0) ≤
      Java_javax_time_impl_WindowsSystemTime_get ((fun _ => (⟨5, 9⟩ : FILETIME)) 3) :=
  ⟨fun _ => le_refl _, by norm_num,
    get_monotone_under_stable_clock (fun _ => ⟨5, 9⟩) (fun _ => le_refl _) 0 3 (by norm_num)⟩

/-- Claim C9: on every successful outcome the increment is zero-extended,
never sign-extended: bits 0-31 of the result equal I exactly and bits
32-62 equal bits 0-30 of A exactly, for every disabled flag and even
when the top bit of I is set. -/
theorem getAdjustment_zero_extends_increment (A I : Nat) (d : Bool)
    (hA : A < 2 ^ 32) (hI : I < 2 ^ 32) :
    Java_javax_time_impl_WindowsSystemTime_getAdjustment ⟨true, A, I, d⟩ % 2 ^ 32 = I ∧
    Java_javax_time_impl_WindowsSystemTime_getAdjustment ⟨true, A, I, d⟩ / 2 ^ 32 % 2 ^ 31 =
      A % 2 ^ 31 := by
  have h := getAdjustment_eq true A I d
  simp at h
  cases d
  · simp at h
    rw [h]
    constructor <;> omega
  · simp at h
    rw [h]
    constructor <;> omega

/-- Witness for the C9 theorem at A = 1, I = 2 ^ 31 + 3 (top bit of I
set), disabled=true. -/
theorem getAdjustment_zero_extends_increment_witness :
    (1 : Nat) < 2 ^ 32 ∧ (2 ^ 31 + 3 : Nat) < 2 ^ 32 ∧
    (Java_javax_time_impl_WindowsSystemTime_getAdjustment ⟨true, 1, 2 ^ 31 + 3, true⟩ % 2 ^ 32 =
       2 ^ 31 + 3 ∧
     Java_javax_time_impl_WindowsSystemTime_getAdjustment ⟨true, 1, 2 ^ 31 + 3, true⟩ / 2 ^ 32 %
       2 ^ 31 = 1 % 2 ^ 31) :=
  ⟨by norm_num, by norm_num,
    getAdjustment_zero_extends_increment 1 (2 ^ 31 + 3) true (by norm_num) (by norm_num)⟩

/-- Claim C10: on the safe sub-domain A < 2 ^ 31 the encoding is
decodable and injective: bit 63 of the result recovers the disabled
flag, bits 32-62 recover A, bits 0-31 recover I, and two outcomes of the
sub-domain with the same result are equal. -/
theorem getAdjustment_roundtrip_safe_domain (A I : Nat) (d : Bool)
    (hA : A < 2 ^ 31) (hI : I < 2 ^ 32) :
    Nat.testBit (Java_javax_time_impl_WindowsSystemTime_getAdjustment ⟨true, A, I, d⟩) 63 = d ∧
    Java_javax_time_impl_WindowsSystemTime_getAdjustment ⟨true, A, I, d⟩ / 2 ^ 32 % 2 ^ 31 = A ∧
    Java_javax_time_impl_WindowsSystemTime_getAdjustment ⟨true, A, I, d⟩ % 2 ^ 32 = I ∧
    (∀ (A2 I2 : Nat) (d2 : Bool), A2 < 2 ^ 31 → I2 < 2 ^ 32 →
      Java_javax_time_impl_WindowsSystemTime_getAdjustment ⟨true, A, I, d⟩ =
        Java_javax_time_impl_WindowsSystemTime_getAdjustment ⟨true, A2, I2, d2⟩ →
      A = A2 ∧ I = I2 ∧ d = d2) := by
  have h := getAdjustment_eq true A I d
  simp at h
  cases d
  · simp at h
    refine ⟨?_, ?_, ?_, ?_⟩
    · rw [h, Nat.testBit_to_div_mod, decide_eq_false_iff_not]
      omega
    · rw [h]
      omega
    · rw [h]
      omega
    · intro A2 I2 d2 hA2 hI2 heq
      have h2 := getAdjustment_eq true A2 I2 d2
      simp at h2
      cases d2
      · simp at h2
        rw [h, h2] at heq
        refine ⟨by omega, by omega, rfl⟩
      · simp at h2
        rw [h, h2] at heq
        exact absurd heq (by omega)
  · simp at h
    refine ⟨?_, ?_, ?_, ?_⟩
    · rw [h, Nat.testBit_to_div_mod, decide_eq_true_eq]
      omega
    · rw [h]
      omega
    · rw [h]
      omega
    · intro A2 I2 d2 hA2 hI2 heq
      have h2 := getAdjustment_eq true A2 I2 d2
      simp at h2
      cases d2
      · simp at h2
        rw [h, h2] at heq
        exact absurd heq (by omega)
      · simp at h2
        rw [h, h2] at heq
        refine ⟨by omega, by omega, rfl⟩

/-- Witness for the C10 theorem at A = 3, I = 2 ^ 31 + 1, disabled=true. -/
theorem getAdjustment_roundtrip_safe_domain_witness :
    (3 : Nat) < 2 ^ 31 ∧ (2 ^ 31 + 1 : Nat) < 2 ^ 32 ∧
    (Nat.testBit
       (Java_javax_time_impl_WindowsSystemTime_getAdjustment ⟨true, 3, 2 ^ 31 + 1, true⟩) 63 =
       true ∧
     Java_javax_time_impl_WindowsSystemTime_getAdjustment ⟨true, 3, 2 ^ 31 + 1, true⟩ / 2 ^ 32 %
       2 ^ 31 = 3 ∧
     Java_javax_time_impl_WindowsSystemTime_getAdjustment ⟨true, 3, 2 ^ 31 + 1, true⟩ % 2 ^ 32 =
       2 ^ 31 + 1 ∧
     (∀ (A2 I2 : Nat) (d2 : Bool), A2 < 2 ^ 31 → I2 < 2 ^ 32 →
       Java_javax_time_impl_WindowsSystemTime_getAdjustment ⟨true, 3, 2 ^ 31 + 1, true⟩ =
         Java_javax_time_impl_WindowsSystemTime_getAdjustment ⟨true, A2, I2, d2⟩ →
       3 = A2 ∧ 2 ^ 31 + 1 = I2 ∧ true = d2)) :=
  ⟨by norm_num, by norm_num,
    getAdjustment_roundtrip_safe_domain 3 (2 ^ 31 + 1) true (by norm_num) (by norm_num)⟩
